import Mathlib

/-!
Verification of the perplexity-cli core: the streaming response decoder
(`api.py`, `_stream_response` / `_sync_response` / `summarize`) and the
context-window manager (`perplexity_cli.py`, `count_tokens`,
`get_messages_token_count`, `summarize_if_needed`), embedded shallowly.
-/

/-- A conversation message, as built by `Session.add_message` in
`session.py`: a dict with exactly the keys `role` and `content`. -/
structure Message where
  role : String
  content : String
deriving DecidableEq, Repr

/-- Function `count_tokens` from `perplexity_cli.py` in the fallback case where no
tiktoken tokenizer is available: `return len(text) // 4` (Python floor
division on the character length). -/
def count_tokens (text : String) : Nat :=
  text.length / 4

/-- Function `get_messages_token_count` from `perplexity_cli.py`:
`sum(count_tokens(msg.get("content", "")) for msg in messages)`.
Messages built by `Session.add_message` always carry a `content` key. -/
def get_messages_token_count (messages : List Message) : Nat :=
  match messages with
  | [] => 0
  | msg :: rest => count_tokens msg.content + get_messages_token_count rest

/-- Definition following the SPEC's words (not the source): the claimed
fallback estimate `ceil(characterLength / 4)` for a text of length `L`. -/
def approximateTokenCount_spec (L : Nat) : Nat :=
  (L + 3) / 4

/-- The transcript rendering used by `summarize_if_needed`:
`"\n".join(f"{role}: {content}" for m in to_summarize)`. -/
def render_transcript (msgs : List Message) : String :=
  String.intercalate "\n" (msgs.map (fun m => m.role ++ ": " ++ m.content))

/-- Function `summarize_if_needed` from `perplexity_cli.py`, with the session's
message list passed explicitly and the `self.api.summarize` call abstracted
as a function from the rendered transcript to either a summary string (its
declared return type in `api.py` is `str`) or a raised exception message.
Returns the history after the call together with the warning text printed
by the `except Exception` handler (`none` when no warning was printed);
the function itself never propagates the failure, mirroring the source's
catch-all handler. -/
def summarize_if_needed (messages : List Message) (input_token_limit : Nat)
    (api_summarize : String → Except String String) :
    List Message × Option String :=
  let token_count := get_messages_token_count messages
  if token_count > input_token_limit ∧ messages.length > 4 then
    let to_summarize := messages.take (messages.length - 4)
    let to_keep := messages.drop (messages.length - 4)
    let summary_text := render_transcript to_summarize
    match api_summarize summary_text with
    | .ok summary =>
        (⟨"system", "Previous conversation summary: " ++ summary⟩ :: to_keep, none)
    | .error e => (messages, some ("Warning: Could not summarize: " ++ e))
  else
    (messages, none)

/-- JSON values, as returned by `json.loads` (numbers modelled as
integers; no claim exercises fractional numbers). -/
inductive Json where
  | null
  | bool (b : Bool)
  | num (n : Int)
  | str (s : String)
  | arr (elems : List Json)
  | obj (fields : List (String × Json))
deriving BEq

/-- Key lookup in a parsed JSON object (Python dict indexing; `json.loads`
produces unique keys, and we read the first binding). -/
def jsonLookup (fields : List (String × Json)) (key : String) : Option Json :=
  match fields with
  | [] => none
  | (k, v) :: rest => if k == key then some v else jsonLookup rest key

/-- Python truthiness of a JSON value (`if v:`). -/
def pyTruthy : Json → Bool
  | .null => false
  | .bool b => b
  | .num n => n != 0
  | .str s => s != ""
  | .arr elems => !elems.isEmpty
  | .obj fields => !fields.isEmpty

/-- Infix test on character lists, used for Python `in` on strings:
the needle occurs contiguously in the haystack (the empty needle always
does, as in Python). -/
def charsContain (needle : List Char) : List Char → Bool
  | [] => needle.isEmpty
  | c :: rest => needle.isPrefixOf (c :: rest) || charsContain needle rest

/-- Python `key in v` for a string `key`: dict key membership, list element
membership, substring test on strings; `TypeError` on null/bool/number. -/
def pyContainsStr (key : String) : Json → Except Unit Bool
  | .obj fields => .ok (jsonLookup fields key).isSome
  | .arr elems => .ok (elems.contains (Json.str key))
  | .str s => .ok (charsContain key.toList s.toList)
  | .null => .error ()
  | .bool _ => .error ()
  | .num _ => .error ()

/-- Python `v[key]` for a string `key`: dict indexing (`KeyError` when
absent), `TypeError` on every other JSON value. -/
def pySubscript (v : Json) (key : String) : Except Unit Json :=
  match v with
  | .obj fields =>
      match jsonLookup fields key with
      | some w => .ok w
      | none => .error ()
  | _ => .error ()

/-- Python `v[0]`: head of a list (`IndexError` when empty), one-character
string of a string, `KeyError` on a str-keyed dict, `TypeError` otherwise. -/
def pySubscriptZero : Json → Except Unit Json
  | .arr (x :: _) => .ok x
  | .arr [] => .error ()
  | .str s => if s == "" then .error () else .ok (Json.str (s.take 1))
  | _ => .error ()

/-- Python `v.get(key, default)`: defined on dicts only
(`AttributeError` on every other JSON value). -/
def pyGet (v : Json) (key : String) (default : Json) : Except Unit Json :=
  match v with
  | .obj fields => .ok ((jsonLookup fields key).getD default)
  | _ => .error ()

/-- The decoder state of `_stream_response` in `api.py`: the running
`citations` binding (initially the Python list `[]`, and whatever JSON
value the last `citations` field carried afterwards) and the accumulated
`full_content` string. -/
structure DecState where
  citations : Json
  full_content : String

/-- The dict `{"citations": ..., "content": ...}` returned by
`_stream_response` when the stream terminates. -/
structure CompletionResult where
  content : String
  citations : Json

/-- The second half of the `try:` block of `_stream_response` for one
parsed chunk, after the `citations` handling fixed the current citation
value `cits`: the `choices[0].delta.content` extraction and the
conditional yield. -/
def processDelta (st : DecState) (cits : Json) (chunk : Json) :
    Except Unit (DecState × Option String) :=
  match pyContainsStr "choices" chunk with
  | .error e => .error e
  | .ok hasChoices =>
    match hasChoices with
    | true =>
      match pySubscript chunk "choices" with
      | .error e => .error e
      | .ok choices =>
        match pyTruthy choices with
        | true =>
          match pySubscriptZero choices with
          | .error e => .error e
          | .ok c0 =>
            match pyGet c0 "delta" (Json.obj []) with
            | .error e => .error e
            | .ok delta =>
              match pyGet delta "content" (Json.str "") with
              | .error e => .error e
              | .ok content =>
                match pyTruthy content with
                | true =>
                  match content with
                  | .str s => .ok (⟨cits, st.full_content ++ s⟩, some s)
                  | _ => .error ()
                | false => .ok (⟨cits, st.full_content⟩, none)
        | false => .ok (⟨cits, st.full_content⟩, none)
    | false => .ok (⟨cits, st.full_content⟩, none)

/-- The body of the `try:` block of `_stream_response` for one parsed
chunk: an optional citations overwrite, then the optional content delta
(yielded only when truthy, and a `TypeError` if a truthy delta content is
not a string). `.error` marks an exception other than `JSONDecodeError`,
which the loop's handler does not catch. Returns the next state and the
fragment yielded, if any. -/
def processChunk (st : DecState) (chunk : Json) :
    Except Unit (DecState × Option String) :=
  match pyContainsStr "citations" chunk with
  | .error e => .error e
  | .ok hasCits =>
    match hasCits with
    | true =>
      match pySubscript chunk "citations" with
      | .error e => .error e
      | .ok cits => processDelta st cits chunk
    | false => processDelta st st.citations chunk

/-- Outcome of one iteration of the `for line in response.iter_lines()`
loop: continue with a new state (possibly yielding a fragment), `break`
on the `[DONE]` sentinel, or escape with an uncaught exception. -/
inductive StepRes where
  | cont (st : DecState) (frag : Option String)
  | stop
  | crashed

/-- One iteration of the line loop of `_stream_response`: skip empty
lines, skip lines without the `"data: "` marker, `break` when the payload
is the `[DONE]` sentinel, otherwise `json.loads` the payload (a parse
failure is caught and skipped) and process the chunk. `parse` stands for
`json.loads`, `none` meaning `JSONDecodeError`. -/
def stepLine (parse : String → Option Json) (st : DecState) (line : String) :
    StepRes :=
  match line == "" with
  | true => .cont st none
  | false =>
    match line.take 6 == "data: " with
    | false => .cont st none
    | true =>
      let json_str := line.drop 6
      match json_str == "[DONE]" with
      | true => .stop
      | false =>
        match parse json_str with
        | none => .cont st none
        | some chunk =>
          match processChunk st chunk with
          | .error _ => .crashed
          | .ok (st', frag) => .cont st' frag

/-- Outcome of running the line loop over a list of lines: `ran` when all
lines were consumed without meeting the sentinel (the transport ended),
`fin` when the sentinel `break` fired, `crashed` when an uncaught
exception escaped. `ran` and `fin` carry the loop state at that point. -/
inductive LoopRes where
  | ran (st : DecState)
  | fin (st : DecState)
  | crashed

/-- The line loop of `_stream_response` over an explicit list of arrived
lines, threading the decoder state and collecting the yielded fragments
in order. -/
def processLines (parse : String → Option Json) :
    List String → DecState → List String × LoopRes
  | [], st => ([], .ran st)
  | line :: rest, st =>
    match stepLine parse st line with
    | .cont st' frag =>
        let out := processLines parse rest st'
        (frag.toList ++ out.1, out.2)
    | .stop => ([], .fin st)
    | .crashed => ([], .crashed)

/-- Function `_stream_response` from `api.py`, over the lines delivered by a
successful transport: returns the fragments yielded to the caller and
either the final dict `{"citations": ..., "content": ...}` (built both on
the sentinel `break` and on natural end of lines) or `.error` when an
uncaught exception escaped the generator. -/
def stream_response (parse : String → Option Json) (lines : List String) :
    List String × Except Unit CompletionResult :=
  match processLines parse lines ⟨Json.arr [], ""⟩ with
  | (frags, .ran st) => (frags, .ok ⟨st.full_content, st.citations⟩)
  | (frags, .fin st) => (frags, .ok ⟨st.full_content, st.citations⟩)
  | (frags, .crashed) => (frags, .error ())

/-- The dict returned by `_sync_response`: the extracted message content
(any JSON value the response carried there) and the `citations` value. -/
structure SyncResult where
  content : Json
  citations : Json

/-- Function `_sync_response` from `api.py`, over the parsed JSON body of a
successful (2xx) response: extracts `choices[0].message.content` when a
truthy `choices` entry exists, else the empty string; pairs it with
`result.get("citations", [])`. `.error` models an uncaught exception
(`TypeError`/`KeyError`/`AttributeError`) on a body of unexpected shape. -/
def sync_response (result : Json) : Except Unit SyncResult :=
  match pyContainsStr "choices" result with
  | .error e => .error e
  | .ok hasChoices =>
    let contentExc : Except Unit Json :=
      match hasChoices with
      | true =>
        match pySubscript result "choices" with
        | .error e => .error e
        | .ok choices =>
          match pyTruthy choices with
          | true =>
            match pySubscriptZero choices with
            | .error e => .error e
            | .ok c0 =>
              match pyGet c0 "message" (Json.obj []) with
              | .error e => .error e
              | .ok msg => pyGet msg "content" (Json.str "")
          | false => .ok (Json.str "")
      | false => .ok (Json.str "")
    match contentExc with
    | .error e => .error e
    | .ok content =>
      match pyGet result "citations" (Json.arr []) with
      | .error e => .error e
      | .ok cits => .ok ⟨content, cits⟩

/-- Function `summarize` from `api.py`, given the outcome of its `_sync_response`
call on the summarization request: returns `result.get("content", text)`,
which is the extracted content since the dict built by `_sync_response`
always carries the key `"content"` (the `text` default is dead). -/
def summarize (sync : Except Unit SyncResult) (text : String) : Except Unit Json :=
  match sync with
  | .error e => .error e
  | .ok r => .ok r.content

/-- The concatenation, in order, of a sequence of fragments. -/
def concatFragments : List String → String
  | [] => ""
  | s :: rest => s ++ concatFragments rest

/-- A concrete payload: the JSON text of a delta event carrying `"Hel"`. -/
def pHel : String :=
  "\x7b\"choices\": [\x7b\"delta\": \x7b\"content\": \"Hel\"\x7d\x7d]\x7d"

/-- A concrete payload: the JSON text of a delta event carrying `"lo"`. -/
def pLo : String :=
  "\x7b\"choices\": [\x7b\"delta\": \x7b\"content\": \"lo\"\x7d\x7d]\x7d"

/-- A concrete payload: the JSON text of a delta event carrying `"Hi"`. -/
def pHi : String :=
  "\x7b\"choices\": [\x7b\"delta\": \x7b\"content\": \"Hi\"\x7d\x7d]\x7d"

/-- A concrete payload: a citations event carrying the list `["urlA"]`. -/
def pCitA : String := "\x7b\"citations\": [\"urlA\"]\x7d"

/-- A concrete payload: a citations event carrying the list `["urlB"]`. -/
def pCitB : String := "\x7b\"citations\": [\"urlB\"]\x7d"

/-- The parsed chunk for a delta event carrying content `s`. -/
def deltaChunk (s : String) : Json :=
  Json.obj [("choices", Json.arr [Json.obj [("delta",
    Json.obj [("content", Json.str s)])]])]

/-- The parsed chunk for a citations event carrying list `l`. -/
def citChunk (l : List Json) : Json :=
  Json.obj [("citations", Json.arr l)]

/-- A fixed sample of `json.loads` behaviour on the concrete payloads
used in the witness streams: each of the five JSON texts parses to its
parsed form, and every other payload (among them the non-JSON text
`[DONE]`) fails to parse. -/
def jsonLoadsFx (s : String) : Option Json :=
  if s = pHel then some (deltaChunk "Hel")
  else if s = pLo then some (deltaChunk "lo")
  else if s = pHi then some (deltaChunk "Hi")
  else if s = pCitA then some (citChunk [Json.str "urlA"])
  else if s = pCitB then some (citChunk [Json.str "urlB"])
  else none

/-- A line that, under the given parse function, continues the loop and
leaves the `citations` binding unchanged whatever the current state:
blank lines, lines without the event marker, unparsable payloads and
delta-only events all qualify. -/
def keepsCitations (parse : String → Option Json) (line : String) : Prop :=
  ∀ st : DecState, ∃ st' frag,
    stepLine parse st line = .cont st' frag ∧ st'.citations = st.citations

/-- A line that, under the given parse function, is processed as an event
whose `citations` field overwrites the citation list with `A`. -/
def setsCitations (parse : String → Option Json) (line : String) (A : Json) : Prop :=
  ∀ st : DecState, ∃ st' frag,
    stepLine parse st line = .cont st' frag ∧ st'.citations = A

/-- Noise in the amended sense of C7: a line the decoder provably skips —
blank, missing the 6-character `"data: "` marker, or carrying a payload
that fails JSON parsing *and* differs from the `[DONE]` sentinel. -/
def isNoiseLine (parse : String → Option Json) (line : String) : Bool :=
  line == "" || !(line.take 6 == "data: ") ||
    (!(line.drop 6 == "[DONE]") && (parse (line.drop 6)).isNone)

/-- Noise in the claim's literal sense: a blank line, a line without the
event marker, or a marker line whose payload fails JSON parsing — a
description that also covers the payload `[DONE]`, which is not valid
JSON. -/
def claimNoiseLine (parse : String → Option Json) (line : String) : Bool :=
  line == "" || !(line.take 6 == "data: ") ||
    ((line.take 6 == "data: ") && (parse (line.drop 6)).isNone)

/-- C1 counterexample: the claim says the fallback estimate is
`ceil(L/4)`, but on the 3-character text `"abc"` the code returns
`3 // 4 = 0` while `ceil(3/4) = 1`. -/
theorem count_tokens_is_not_ceil :
    count_tokens "abc" ≠ approximateTokenCount_spec (String.length "abc") := by
  decide

/-- C1 (amended): with no tokenizer available, `count_tokens` on a text of
character length `L` returns `floor(L/4)` (Python `L // 4`), and the count
over a message list is the sum of this per-message estimate. -/
theorem count_tokens_floor_and_sum (text : String) (msgs : List Message) :
    count_tokens text = text.length / 4 ∧
    get_messages_token_count msgs =
      (msgs.map (fun m => count_tokens m.content)).sum := by
  refine ⟨rfl, ?_⟩
  induction msgs with
  | nil => rfl
  | cons m rest ih => simp [get_messages_token_count, ih]

/-- C4: a history with at most 4 messages, or whose approximate token
count does not strictly exceed the budget, is left completely unchanged by
`summarize_if_needed`, whatever the summarization call would do. -/
theorem summarize_if_needed_under_budget_unchanged
    (msgs : List Message) (limit : Nat)
    (f : String → Except String String)
    (h : msgs.length ≤ 4 ∨ get_messages_token_count msgs ≤ limit) :
    summarize_if_needed msgs limit f = (msgs, none) := by
  unfold summarize_if_needed
  rcases h with h | h
  · rw [if_neg]
    rintro ⟨-, h4⟩
    omega
  · rw [if_neg]
    rintro ⟨hgt, -⟩
    omega

/-- Witness for C4 at a concrete input: a 2-message history far over a
budget of 0 is untouched. -/
theorem summarize_if_needed_under_budget_unchanged_witness :
    summarize_if_needed
      [⟨"user", "aaaaaaaaaaaaaaaa"⟩, ⟨"assistant", "bbbbbbbb"⟩] 0
      (fun _ => .error "network down")
      = ([⟨"user", "aaaaaaaaaaaaaaaa"⟩, ⟨"assistant", "bbbbbbbb"⟩], none) :=
  summarize_if_needed_under_budget_unchanged _ 0 _ (Or.inl (by decide))

/-- C2: when the history has more than 4 messages, its approximate token
count strictly exceeds the budget, and the summarization call returns
summary `S` on the rendered stale transcript, `summarize_if_needed`
replaces the history with one system message whose content is
`"Previous conversation summary: "` followed by `S`, then the original
last 4 messages unchanged and in order, so the result always has exactly
5 entries; no warning is raised. -/
theorem summarize_if_needed_rewrites_over_budget
    (msgs : List Message) (limit : Nat) (S : String)
    (f : String → Except String String)
    (h4 : msgs.length > 4)
    (hb : get_messages_token_count msgs > limit)
    (hf : f (render_transcript (msgs.take (msgs.length - 4))) = .ok S) :
    summarize_if_needed msgs limit f =
      (⟨"system", "Previous conversation summary: " ++ S⟩ ::
        msgs.drop (msgs.length - 4), none) ∧
    (summarize_if_needed msgs limit f).1.length = 5 := by
  have hmain : summarize_if_needed msgs limit f =
      (⟨"system", "Previous conversation summary: " ++ S⟩ ::
        msgs.drop (msgs.length - 4), none) := by
    unfold summarize_if_needed
    rw [if_pos ⟨hb, h4⟩]
    simp only [hf]
  refine ⟨hmain, ?_⟩
  rw [hmain]
  simp [List.length_drop]
  omega

/-- Witness for C2: a concrete 6-message history over budget 10, whose
summarization succeeds with summary "S", is rewritten to exactly 5 entries:
the synthetic system summary followed by the original last 4 messages. -/
theorem summarize_if_needed_rewrites_over_budget_witness :
    summarize_if_needed
      [⟨"user", "aaaaaaaaaaaaaaaaaaaaaaaa"⟩, ⟨"assistant", "bbbbbbbbbbbbbbbbbbbbbbbb"⟩,
       ⟨"user", "q1"⟩, ⟨"assistant", "a1"⟩, ⟨"user", "q2"⟩, ⟨"assistant", "a2"⟩] 10
      (fun _ => .ok "S")
      = ([⟨"system", "Previous conversation summary: S"⟩,
          ⟨"user", "q1"⟩, ⟨"assistant", "a1"⟩, ⟨"user", "q2"⟩, ⟨"assistant", "a2"⟩], none) :=
  (summarize_if_needed_rewrites_over_budget _ 10 "S" _
    (by decide) (by decide) rfl).1

/-- C3: when the history is over budget (rewrite attempted) and the
summarization call raises, `summarize_if_needed` returns the history
exactly as it was (no partial rewrite) and reports the failure as a
printed warning instead of propagating the exception. -/
theorem summarize_if_needed_failure_leaves_history
    (msgs : List Message) (limit : Nat) (e : String)
    (f : String → Except String String)
    (h4 : msgs.length > 4)
    (hb : get_messages_token_count msgs > limit)
    (hf : f (render_transcript (msgs.take (msgs.length - 4))) = .error e) :
    summarize_if_needed msgs limit f =
      (msgs, some ("Warning: Could not summarize: " ++ e)) := by
  unfold summarize_if_needed
  rw [if_pos ⟨hb, h4⟩]
  simp only [hf]

/-- Witness for C3: a concrete over-budget 5-message history survives a
failing summarization call byte-for-byte, with a warning reported. -/
theorem summarize_if_needed_failure_leaves_history_witness :
    summarize_if_needed
      [⟨"user", "aaaaaaaaaaaaaaaaaaaaaaaa"⟩, ⟨"assistant", "bbbbbbbbbbbbbbbbbbbbbbbb"⟩,
       ⟨"user", "q1"⟩, ⟨"assistant", "a1"⟩, ⟨"user", "q2"⟩] 5
      (fun _ => .error "connection reset")
      = ([⟨"user", "aaaaaaaaaaaaaaaaaaaaaaaa"⟩, ⟨"assistant", "bbbbbbbbbbbbbbbbbbbbbbbb"⟩,
          ⟨"user", "q1"⟩, ⟨"assistant", "a1"⟩, ⟨"user", "q2"⟩],
         some "Warning: Could not summarize: connection reset") :=
  summarize_if_needed_failure_leaves_history _ 5 "connection reset" _
    (by decide) (by decide) rfl

theorem str_append_assoc (a b c : String) : a ++ b ++ c = a ++ (b ++ c) := by
  apply String.ext
  simp

theorem processDelta_ok_content (st : DecState) (cits chunk : Json)
    (st' : DecState) (frag : Option String)
    (h : processDelta st cits chunk = .ok (st', frag)) :
    st'.citations = cits ∧
    st'.full_content = st.full_content ++ frag.getD "" ∧ frag ≠ some "" := by
  unfold processDelta at h
  repeat' split at h
  all_goals simp only [Except.ok.injEq, Prod.mk.injEq, reduceCtorEq] at h
  all_goals obtain ⟨h1, h2⟩ := h
  all_goals subst h1
  all_goals subst h2
  all_goals refine ⟨rfl, ?_, ?_⟩
  all_goals simp_all [String.append_empty, pyTruthy]

theorem processChunk_ok_content (st : DecState) (chunk : Json) (st' : DecState)
    (frag : Option String) (h : processChunk st chunk = .ok (st', frag)) :
    st'.full_content = st.full_content ++ frag.getD "" ∧ frag ≠ some "" := by
  unfold processChunk at h
  repeat' split at h
  any_goals simp only [reduceCtorEq] at h
  all_goals exact (processDelta_ok_content _ _ _ _ _ h).2

theorem stepLine_cont_content (parse : String → Option Json) (st : DecState)
    (line : String) (st' : DecState) (frag : Option String)
    (h : stepLine parse st line = .cont st' frag) :
    st'.full_content = st.full_content ++ frag.getD "" ∧ frag ≠ some "" := by
  unfold stepLine at h
  cases hb1 : (line == "") with
  | true =>
    simp only [hb1] at h
    cases h
    exact ⟨(String.append_empty _).symm, by simp⟩
  | false =>
    simp only [hb1] at h
    cases hb2 : (line.take 6 == "data: ") with
    | false =>
      simp only [hb2] at h
      cases h
      exact ⟨(String.append_empty _).symm, by simp⟩
    | true =>
      simp only [hb2] at h
      cases hb3 : (line.drop 6 == "[DONE]") with
      | true => simp only [hb3] at h; cases h
      | false =>
        simp only [hb3] at h
        cases hp : parse (line.drop 6) with
        | none =>
          simp only [hp] at h
          cases h
          exact ⟨(String.append_empty _).symm, by simp⟩
        | some chunk =>
          simp only [hp] at h
          cases hpc : processChunk st chunk with
          | error e => simp only [hpc] at h; cases h
          | ok pr =>
            obtain ⟨st1, frag1⟩ := pr
            simp only [hpc] at h
            cases h
            exact processChunk_ok_content _ _ _ _ hpc

theorem processLines_spec (parse : String → Option Json) (lines : List String) :
    ∀ (st : DecState) (fs : List String) (r : LoopRes),
      processLines parse lines st = (fs, r) →
      (∀ f ∈ fs, f ≠ "") ∧
      ∀ st', (r = .ran st' ∨ r = .fin st') →
        st'.full_content = st.full_content ++ concatFragments fs := by
  induction lines with
  | nil =>
    intro st fs r h
    simp only [processLines, Prod.mk.injEq] at h
    obtain ⟨h1, h2⟩ := h
    subst h1
    subst h2
    refine ⟨by simp, ?_⟩
    rintro st' (h | h)
    · cases h; exact (String.append_empty _).symm
    · cases h
  | cons l rest ih =>
    intro st fs r h
    simp only [processLines] at h
    cases hs : stepLine parse st l with
    | cont st1 frag =>
      simp only [hs] at h
      rcases hout : processLines parse rest st1 with ⟨fs1, r1⟩
      rw [hout] at h
      simp only [Prod.mk.injEq] at h
      obtain ⟨h1, h2⟩ := h
      subst h1
      subst h2
      obtain ⟨hfc, hfrag⟩ := stepLine_cont_content parse st l st1 frag hs
      obtain ⟨ihne, ihcontent⟩ := ih st1 fs1 r1 hout
      constructor
      · intro f hf
        rcases List.mem_append.1 hf with hf | hf
        · cases frag with
          | none => cases hf
          | some s =>
            simp only [Option.toList, List.mem_singleton] at hf
            subst hf
            intro hcon
            exact hfrag (by rw [hcon])
        · exact ihne f hf
      · intro st'' hr
        have hcat : concatFragments (frag.toList ++ fs1) =
            frag.getD "" ++ concatFragments fs1 := by
          cases frag with
          | none => simp [concatFragments, String.empty_append, Option.toList]
          | some s => simp [concatFragments, Option.toList]
        rw [hcat, ihcontent st'' hr, hfc, str_append_assoc]
    | stop =>
      simp only [hs, Prod.mk.injEq] at h
      obtain ⟨h1, h2⟩ := h
      subst h1
      subst h2
      refine ⟨by simp, ?_⟩
      rintro st' (h | h)
      · cases h
      · cases h; exact (String.append_empty _).symm
    | crashed =>
      simp only [hs, Prod.mk.injEq] at h
      obtain ⟨h1, h2⟩ := h
      subst h1
      subst h2
      refine ⟨by simp, ?_⟩
      rintro st' (h | h) <;> cases h

/-- C5: whenever the stream decoder terminates with a CompletionResult
(the sentinel or the end of the lines was reached without an uncaught
exception), the concatenation, in order, of the fragments it yielded
equals the result's `content`, and every yielded fragment is non-empty. -/
theorem stream_content_is_fragment_concat (parse : String → Option Json)
    (lines : List String) (fs : List String) (r : CompletionResult)
    (h : stream_response parse lines = (fs, .ok r)) :
    r.content = concatFragments fs ∧ ∀ f ∈ fs, f ≠ "" := by
  unfold stream_response at h
  rcases hout : processLines parse lines ⟨Json.arr [], ""⟩ with ⟨fs1, r1⟩
  rw [hout] at h
  obtain ⟨hne, hcontent⟩ := processLines_spec parse lines _ _ _ hout
  cases r1 with
  | ran st =>
    simp only [Prod.mk.injEq, Except.ok.injEq] at h
    obtain ⟨h1, h2⟩ := h
    subst h1
    subst h2
    refine ⟨?_, hne⟩
    have hc := hcontent st (Or.inl rfl)
    simpa [String.empty_append] using hc
  | fin st =>
    simp only [Prod.mk.injEq, Except.ok.injEq] at h
    obtain ⟨h1, h2⟩ := h
    subst h1
    subst h2
    refine ⟨?_, hne⟩
    have hc := hcontent st (Or.inr rfl)
    simpa [String.empty_append] using hc
  | crashed =>
    simp only [Prod.mk.injEq, reduceCtorEq] at h
    exact absurd h.2 (by simp)

/-- Witness for C5 on the spec's end-to-end scenario 1: the two delta
events followed by the sentinel yield fragments `["Hel", "lo"]` with final
content `"Hello"`; the theorem instance confirms the concatenation
property and non-emptiness there. -/
theorem stream_content_is_fragment_concat_witness :
    (⟨"Hello", Json.arr []⟩ : CompletionResult).content =
      concatFragments ["Hel", "lo"] ∧
    ∀ f ∈ (["Hel", "lo"] : List String), f ≠ "" :=
  stream_content_is_fragment_concat jsonLoadsFx
    ["data: " ++ pHel, "data: " ++ pLo, "data: [DONE]"]
    ["Hel", "lo"] ⟨"Hello", Json.arr []⟩ rfl

theorem processLines_append_ran (parse : String → Option Json) (xs : List String) :
    ∀ (ys : List String) (st : DecState) (fs : List String) (st' : DecState),
      processLines parse xs st = (fs, .ran st') →
      processLines parse (xs ++ ys) st =
        (fs ++ (processLines parse ys st').1, (processLines parse ys st').2) := by
  induction xs with
  | nil =>
    intro ys st fs st' h
    simp only [processLines, Prod.mk.injEq, LoopRes.ran.injEq] at h
    obtain ⟨h1, h2⟩ := h
    subst h1
    subst h2
    simp
  | cons l rest ih =>
    intro ys st fs st' h
    simp only [processLines, List.cons_append] at h ⊢
    cases hs : stepLine parse st l with
    | cont st1 frag =>
      simp only [hs] at h ⊢
      rcases hout : processLines parse rest st1 with ⟨fs1, r1⟩
      rw [hout] at h
      simp only [Prod.mk.injEq] at h
      obtain ⟨h1, h2⟩ := h
      subst h1
      subst h2
      simp only [List.append_eq]
      rw [ih ys st1 fs1 st' hout]
      simp [List.append_assoc]
    | stop =>
      simp only [hs, Prod.mk.injEq, reduceCtorEq] at h
      exact absurd h.2 (by simp)
    | crashed =>
      simp only [hs, Prod.mk.injEq, reduceCtorEq] at h
      exact absurd h.2 (by simp)

theorem stepLine_done (parse : String → Option Json) (st : DecState) :
    stepLine parse st "data: [DONE]" = .stop := rfl

/-- C8: the first line whose payload is the `[DONE]` sentinel terminates
the decoder successfully: given that the lines before it ran through
without a sentinel or a crash (reaching state `st` with fragments `fs`),
the whole stream — whatever lines follow the sentinel — produces exactly
the fragments `fs` and the CompletionResult built from the content and
citations accumulated in `st`. -/
theorem done_sentinel_terminates_stream (parse : String → Option Json)
    (xs zs : List String) (fs : List String) (st : DecState)
    (h : processLines parse xs ⟨Json.arr [], ""⟩ = (fs, .ran st)) :
    stream_response parse (xs ++ "data: [DONE]" :: zs) =
      (fs, .ok ⟨st.full_content, st.citations⟩) := by
  have hdone : processLines parse ("data: [DONE]" :: zs) st = ([], .fin st) := by
    simp only [processLines, stepLine_done]
  have hall : processLines parse (xs ++ "data: [DONE]" :: zs) ⟨Json.arr [], ""⟩ =
      (fs, .fin st) := by
    rw [processLines_append_ran parse xs ("data: [DONE]" :: zs) _ _ _ h, hdone]
    simp
  unfold stream_response
  rw [hall]

/-- Witness for C8: with one delta event before the sentinel and another
after it, the decoder stops at the sentinel: only `"Hel"` is yielded and
the result content is `"Hel"`. -/
theorem done_sentinel_terminates_stream_witness :
    stream_response jsonLoadsFx
      (["data: " ++ pHel] ++ "data: [DONE]" :: ["data: " ++ pLo]) =
      (["Hel"], .ok ⟨"Hel", Json.arr []⟩) :=
  done_sentinel_terminates_stream jsonLoadsFx ["data: " ++ pHel]
    ["data: " ++ pLo] ["Hel"] ⟨Json.arr [], "Hel"⟩ rfl

theorem processLines_keeps (parse : String → Option Json) (ns : List String)
    (hns : ∀ l ∈ ns, keepsCitations parse l) :
    ∀ st : DecState, ∃ fs st',
      processLines parse ns st = (fs, .ran st') ∧ st'.citations = st.citations := by
  induction ns with
  | nil => intro st; exact ⟨[], st, rfl, rfl⟩
  | cons l rest ih =>
    intro st
    obtain ⟨st1, frag, hs, hc⟩ := hns l (List.mem_cons_self l rest) st
    obtain ⟨fs1, st2, hrest, hc2⟩ :=
      ih (fun x hx => hns x (List.mem_cons_of_mem _ hx)) st1
    refine ⟨frag.toList ++ fs1, st2, ?_, by rw [hc2, hc]⟩
    simp only [processLines, hs, hrest]

/-- C6: in a stream holding a citations event carrying `A` and a later
citations event carrying `B` (both truthy, `A ≠ B`), with every other
line before the sentinel leaving citations untouched, each `citations`
field replaces the current list, so the final CompletionResult carries
exactly `B` — not `A`, and not an accumulation. -/
theorem stream_citations_last_write_wins (parse : String → Option Json)
    (n1 n2 : List String) (la lb : String) (A B : Json)
    (hn1 : ∀ l ∈ n1, keepsCitations parse l)
    (hn2 : ∀ l ∈ n2, keepsCitations parse l)
    (hla : setsCitations parse la A)
    (hlb : setsCitations parse lb B)
    (hA : pyTruthy A = true) (hB : pyTruthy B = true) (hAB : A ≠ B) :
    ∃ fs content,
      stream_response parse (n1 ++ la :: (n2 ++ lb :: ["data: [DONE]"])) =
        (fs, .ok ⟨content, B⟩) ∧ B ≠ A := by
  obtain ⟨fs1, st1, h1, -⟩ := processLines_keeps parse n1 hn1 ⟨Json.arr [], ""⟩
  obtain ⟨st2, f2, h2, -⟩ := hla st1
  obtain ⟨fs2, st3, h3, -⟩ := processLines_keeps parse n2 hn2 st2
  obtain ⟨st4, f4, h4, hc4⟩ := hlb st3
  have hdone : processLines parse ["data: [DONE]"] st4 = ([], .fin st4) := by
    simp only [processLines, stepLine_done]
  have htail2 : processLines parse (lb :: ["data: [DONE]"]) st3 =
      (f4.toList ++ [], .fin st4) := by
    simp only [processLines, h4, stepLine_done]
  have htail1 : processLines parse (n2 ++ lb :: ["data: [DONE]"]) st2 =
      (fs2 ++ (f4.toList ++ []), .fin st4) := by
    rw [processLines_append_ran parse n2 (lb :: ["data: [DONE]"]) st2 fs2 st3 h3,
      htail2]
  have htail0 : processLines parse (la :: (n2 ++ lb :: ["data: [DONE]"])) st1 =
      (f2.toList ++ (fs2 ++ (f4.toList ++ [])), .fin st4) := by
    simp only [processLines, h2, htail1]
  have hall : processLines parse (n1 ++ la :: (n2 ++ lb :: ["data: [DONE]"]))
      ⟨Json.arr [], ""⟩ =
      (fs1 ++ (f2.toList ++ (fs2 ++ (f4.toList ++ []))), .fin st4) := by
    rw [processLines_append_ran parse n1 _ _ _ _ h1, htail0]
  refine ⟨fs1 ++ (f2.toList ++ (fs2 ++ (f4.toList ++ []))), st4.full_content,
    ?_, fun heq => hAB heq.symm⟩
  unfold stream_response
  rw [hall]
  simp only [hc4]

/-- Witness for C6: a stream carrying citations `["urlA"]`, then noise and
a delta event, then citations `["urlB"]`, then the sentinel, ends with
citations exactly `["urlB"]`. -/
theorem stream_citations_last_write_wins_witness :
    ∃ fs content,
      stream_response jsonLoadsFx
        ([] ++ ("data: " ++ pCitA) ::
          (["", "keepalive", "data: " ++ pHel] ++
            ("data: " ++ pCitB) :: ["data: [DONE]"])) =
        (fs, .ok ⟨content, Json.arr [Json.str "urlB"]⟩) ∧
      Json.arr [Json.str "urlB"] ≠ Json.arr [Json.str "urlA"] := by
  refine stream_citations_last_write_wins jsonLoadsFx []
    ["", "keepalive", "data: " ++ pHel] ("data: " ++ pCitA) ("data: " ++ pCitB)
    (Json.arr [Json.str "urlA"]) (Json.arr [Json.str "urlB"])
    (by intro l hl; cases hl) ?_ ?_ ?_ rfl rfl ?_
  · intro l hl
    simp only [List.mem_cons, List.not_mem_nil, or_false] at hl
    rcases hl with rfl | rfl | rfl
    all_goals intro st
    all_goals exact ⟨_, _, rfl, rfl⟩
  · intro st
    exact ⟨_, _, rfl, rfl⟩
  · intro st
    exact ⟨_, _, rfl, rfl⟩
  · simp

theorem stepLine_noise_skip (parse : String → Option Json) (st : DecState)
    (line : String) (h : isNoiseLine parse line = true) :
    stepLine parse st line = .cont st none := by
  unfold stepLine
  cases hb1 : (line == "") with
  | true => simp only [hb1]
  | false =>
    simp only [hb1]
    cases hb2 : (line.take 6 == "data: ") with
    | false => simp only [hb2]
    | true =>
      simp only [hb2]
      unfold isNoiseLine at h
      rw [hb1, hb2] at h
      simp only [Bool.false_or, Bool.not_true, Bool.and_eq_true,
        Bool.not_eq_true', Option.isNone_iff_eq_none] at h
      obtain ⟨hne, hnone⟩ := h
      simp only [hne, hnone]

theorem processLines_filter_noise (parse : String → Option Json)
    (lines : List String) :
    ∀ st, processLines parse lines st =
      processLines parse (lines.filter (fun l => !(isNoiseLine parse l))) st := by
  induction lines with
  | nil => intro st; rfl
  | cons l rest ih =>
    intro st
    by_cases hn : isNoiseLine parse l = true
    · rw [List.filter_cons_of_neg (by simp [hn])]
      simp only [processLines, stepLine_noise_skip parse st l hn, Option.toList,
        List.nil_append]
      rw [← ih st]
    · rw [List.filter_cons_of_pos (by simp [Bool.not_eq_true] at hn ⊢; exact hn)]
      simp only [processLines]
      cases hs : stepLine parse st l with
      | cont st1 frag => simp only [hs]; rw [ih st1]
      | stop => simp only [hs]
      | crashed => simp only [hs]

/-- C7 (amended): removing from a stream every blank line, every line not
prefixed with the event marker, and every marker line whose payload fails
JSON parsing *and is not the sentinel text `[DONE]`* changes neither the
fragment sequence nor the final outcome — equivalently, inserting such
noise lines at any positions is invisible to the decoder. (The sentinel
exclusion is forced: the `[DONE]` check precedes JSON parsing.) -/
theorem stream_response_noise_invariant (parse : String → Option Json)
    (lines : List String) :
    stream_response parse lines =
      stream_response parse (lines.filter (fun l => !(isNoiseLine parse l))) := by
  unfold stream_response
  rw [← processLines_filter_noise parse lines]

/-- C7 counterexample: under a parse function for which the payload
`[DONE]` fails JSON parsing (as it does for `json.loads`), the line
`"data: [DONE]"` satisfies the claim's noise predicate, yet inserting it
at the front of a healthy stream empties the fragment sequence instead of
leaving it unchanged: the sentinel comparison runs before JSON parsing,
so this "noise" line terminates the stream. -/
theorem stream_noise_with_done_payload_cex :
    claimNoiseLine jsonLoadsFx "data: [DONE]" = true ∧
    (stream_response jsonLoadsFx
        ("data: [DONE]" :: ("data: " ++ pHi) :: ["data: [DONE]"])).1 ≠
      (stream_response jsonLoadsFx (("data: " ++ pHi) :: ["data: [DONE]"])).1 := by
  constructor
  · rfl
  · intro h
    have h1 : (stream_response jsonLoadsFx
        ("data: [DONE]" :: ("data: " ++ pHi) :: ["data: [DONE]"])).1 = [] := rfl
    have h2 : (stream_response jsonLoadsFx
        (("data: " ++ pHi) :: ["data: [DONE]"])).1 = ["Hi"] := rfl
    rw [h1, h2] at h
    cases h

/-- C9: a parsed non-streaming response body (a JSON object) with no
choices — the `choices` key absent, or bound to an empty array — makes
`_sync_response` return a result whose content is the empty string (with
the body's citations, defaulting to `[]`), rather than raise. -/
theorem sync_response_no_choices_empty (fields : List (String × Json))
    (h : jsonLookup fields "choices" = none ∨
         jsonLookup fields "choices" = some (Json.arr [])) :
    sync_response (Json.obj fields) =
      .ok ⟨Json.str "", (jsonLookup fields "citations").getD (Json.arr [])⟩ := by
  unfold sync_response
  rcases h with h | h
  · simp [pyContainsStr, h, pyGet]
  · simp [pyContainsStr, h, pySubscript, pyTruthy, pyGet]

/-- Witness for C9: the empty JSON object body yields content `""` and
citations `[]`. -/
theorem sync_response_no_choices_empty_witness :
    sync_response (Json.obj []) = .ok ⟨Json.str "", Json.arr []⟩ :=
  sync_response_no_choices_empty [] (Or.inl rfl)

/-- C10: when the summarization call's response parses but has no
choices, `summarize` returns the empty string (no exception), and
`summarize_if_needed` on an over-budget history with more than 4 messages
still rewrites: the stale prefix is discarded and replaced by one system
message whose content is exactly `"Previous conversation summary: "` with
nothing after it, followed by the last 4 messages. -/
theorem empty_summary_still_rewrites (fields : List (String × Json))
    (txt : String) (msgs : List Message) (limit : Nat)
    (hch : jsonLookup fields "choices" = none ∨
           jsonLookup fields "choices" = some (Json.arr []))
    (h4 : msgs.length > 4)
    (hb : get_messages_token_count msgs > limit) :
    summarize (sync_response (Json.obj fields)) txt = .ok (Json.str "") ∧
    summarize_if_needed msgs limit (fun _ => .ok "") =
      (⟨"system", "Previous conversation summary: "⟩ ::
        msgs.drop (msgs.length - 4), none) := by
  constructor
  · unfold summarize
    rcases hch with h | h
    · simp [sync_response, pyContainsStr, h, pyGet]
    · simp [sync_response, pyContainsStr, h, pySubscript, pyTruthy, pyGet]
  · unfold summarize_if_needed
    rw [if_pos ⟨hb, h4⟩]
    simp [String.append_empty]

/-- Witness for C10: a 5-message over-budget history, summarized through a
no-choices response body, is rewritten with the bare summary header. -/
theorem empty_summary_still_rewrites_witness :
    summarize (sync_response (Json.obj [])) "t" = .ok (Json.str "") ∧
    summarize_if_needed
      [⟨"user", "aaaaaaaaaaaaaaaaaaaaaaaa"⟩, ⟨"assistant", "bbbbbbbbbbbbbbbbbbbbbbbb"⟩,
       ⟨"user", "q1"⟩, ⟨"assistant", "a1"⟩, ⟨"user", "q2"⟩] 5 (fun _ => .ok "") =
      (⟨"system", "Previous conversation summary: "⟩ ::
        [⟨"assistant", "bbbbbbbbbbbbbbbbbbbbbbbb"⟩, ⟨"user", "q1"⟩,
         ⟨"assistant", "a1"⟩, ⟨"user", "q2"⟩], none) :=
  empty_summary_still_rewrites [] "t"
    [⟨"user", "aaaaaaaaaaaaaaaaaaaaaaaa"⟩, ⟨"assistant", "bbbbbbbbbbbbbbbbbbbbbbbb"⟩,
     ⟨"user", "q1"⟩, ⟨"assistant", "a1"⟩, ⟨"user", "q2"⟩] 5
    (Or.inl rfl) (by decide) (by decide)
